import Mathlib

/-
Verification of the resource-communication and simulation layer of
PythonEquipmentDrivers (`pythonequipmentdrivers/core.py` and
`pythonequipmentdrivers/errors.py`).

The embedding models:
  * Python `dict` as an insertion-ordered association list (`dictGet`,
    `dictSet`); updating an existing key replaces its value in place,
    inserting a fresh key appends at the end, matching CPython semantics.
  * Python values relevant to the virtual-device engine (`PyVal`) and the
    return-type tags that `VirtualDevice._get_default_value` discriminates
    (`PyType`).
  * `VirtualDevice` (construction, `_analyze_device_class`,
    `_get_default_value`, `_update_state`, `__getattr__` dispatch,
    `get_call_history`, `set_measurement_value`).
  * `VisaResource._do_with_retry` and the retried I/O methods
    (`write_resource`, `write_resource_raw`, `query_resource`,
    `read_resource`, `read_resource_raw`, `read_resource_bytes`), with the
    transport modelled as a sequence of per-attempt outcomes, and
    `VisaResource.__init__`.
-/

namespace PED

/-! ### Python strings

Lean `String` in this toolchain is a structure over `List Char`, so string
surgery is modelled directly on the character lists.  `pyStartsWith`,
`pyDrop` and `strCat` model Python's `str.startswith`, slicing `s[n:]` and
concatenation. -/

def pyStartsWith (s p : String) : Bool := p.data.isPrefixOf s.data

def pyDrop (s : String) (n : Nat) : String := ⟨s.data.drop n⟩

def strCat (a b : String) : String := ⟨a.data ++ b.data⟩

/-- The whitespace characters removed by Python's `str.strip()` (the ASCII
ones; other Unicode space characters never appear in the claims). -/
def isPySpace (c : Char) : Bool :=
  c = ' ' || c = '\t' || c = '\n' || c = '\x0d' || c = '\x0b' || c = '\x0c'

/-- Python `str.strip()`: remove leading and trailing whitespace. -/
def pyStrip (s : String) : String :=
  ⟨((s.data.dropWhile isPySpace).reverse.dropWhile isPySpace).reverse⟩

/-- The transform described by the specification for `query_resource` /
`read_resource`: remove only the trailing whitespace run, leaving
everything before it unchanged. -/
def specTrailingTrim (s : String) : String :=
  ⟨(s.data.reverse.dropWhile isPySpace).reverse⟩

/-- Removal of only the leading whitespace run. -/
def specLeadingTrim (s : String) : String :=
  ⟨s.data.dropWhile isPySpace⟩

/-! ### Python dict model -/

def dictGet {α : Type} (d : List (String × α)) (k : String) : Option α :=
  match d with
  | [] => none
  | (k', v) :: rest => if k' = k then some v else dictGet rest k

def dictSet {α : Type} (d : List (String × α)) (k : String) (v : α) :
    List (String × α) :=
  match d with
  | [] => [(k, v)]
  | (k', v') :: rest =>
    if k' = k then (k, v) :: rest else (k', v') :: dictSet rest k v

/-! ### Python values and return-type tags -/

inductive PyVal where
  | none
  | bool (b : Bool)
  | int (n : Int)
  | float (q : ℚ)
  | str (s : String)
  | list (xs : List PyVal)

/-- The return-annotation categories that `_get_default_value`
discriminates: `noneAnn` is an absent annotation
(`get_type_hints(method).get('return')` yields Python `None`), `listGeneric`
is a parameterized `typing.List[...]` (has `__origin__ is list`), `other`
is any other type object (including `NoneType` from a `-> None`
annotation, which falls through every branch of `_get_default_value` to
the final `return None`). -/
inductive PyType where
  | noneAnn
  | boolT
  | intT
  | floatT
  | strT
  | listGeneric
  | other
deriving DecidableEq

/-- `VirtualDevice._get_default_value` (core.py lines 459-474). -/
def get_default_value : PyType → PyVal
  | .noneAnn => .none
  | .boolT => .bool false
  | .intT => .int 0
  | .floatT => .float 0
  | .strT => .str ""
  | .listGeneric => .list []
  | .other => .none

/-! ### The virtual-device engine -/

abbrev Args := List PyVal
abbrev Kwargs := List (String × PyVal)
abbrev CallEntry := Args × Kwargs

structure MethodInfo where
  returnType : PyType
  defaultValue : PyVal

structure VirtualDevice where
  address : String
  /-- `self.state`: the call-history dict (method name ↦ last `(args, kwargs)`). -/
  state : List (String × CallEntry)
  /-- `self.values`: the simulated state table. -/
  values : List (String × PyVal)
  /-- `self.attributes`: the static attribute overrides (constructor kwargs). -/
  attributes : List (String × PyVal)
  /-- `self.device_class`: the introspected class, as its public-function
  member list `(name, return annotation)`, or `none`. -/
  device_class : Option (List (String × PyType))
  /-- `self.methods`: the capability table. -/
  methods : List (String × MethodInfo)

/-- One iteration of the loop body of `_analyze_device_class`
(core.py lines 440-457): skip names starting with `_`; store the method
info; seed `values` for `measure_`/`get_` names. -/
def analyzeStep (acc : List (String × MethodInfo) × List (String × PyVal))
    (entry : String × PyType) :
    List (String × MethodInfo) × List (String × PyVal) :=
  if pyStartsWith entry.1 "_" then acc
  else
    let mi : MethodInfo := ⟨entry.2, get_default_value entry.2⟩
    let ms := dictSet acc.1 entry.1 mi
    let vs :=
      if pyStartsWith entry.1 "measure_" || pyStartsWith entry.1 "get_" then
        dictSet acc.2 entry.1 mi.defaultValue
      else acc.2
    (ms, vs)

/-- `VirtualDevice._analyze_device_class`: builds `(methods, values)` from the
introspected member list. -/
def analyzeDeviceClass (cls : List (String × PyType)) :
    List (String × MethodInfo) × List (String × PyVal) :=
  cls.foldl analyzeStep ([], [])

/-- `VirtualDevice.__init__` (core.py lines 411-436).  `cls = none` models
both the no-definition case and the import-failure case (which only emits a
warning and leaves the tables empty). -/
def VirtualDevice.create (address : String)
    (cls : Option (List (String × PyType))) (kwargs : Kwargs) :
    VirtualDevice :=
  let tables := match cls with
    | some c => analyzeDeviceClass c
    | none => ([], [])
  { address := address
    state := []
    values := tables.2
    attributes := kwargs
    device_class := cls
    methods := tables.1 }

/-- Python exceptions that the modelled paths can raise. -/
inductive PyError where
  | indexError
  | keyError
deriving DecidableEq

/-- The value-propagation step of `_update_state` for a `set_<field>` call
(core.py lines 484-494): write `value` under `get_<field>` and
`measure_<field>` in the state table, each only when it is a known
capability. -/
def setterValues (methods : List (String × MethodInfo))
    (values : List (String × PyVal)) (field : String) (value : PyVal) :
    List (String × PyVal) :=
  let get_name := strCat "get_" field
  let measure_name := strCat "measure_" field
  let vs1 :=
    if (dictGet methods get_name).isSome then dictSet values get_name value
    else values
  if (dictGet methods measure_name).isSome then
    dictSet vs1 measure_name value
  else vs1

/-- The value being set, extracted by `_update_state`:
`next(iter(kwargs.values())) if kwargs else args[0]` (an `IndexError`
when both are empty). -/
def extractSetValue (args : Args) (kwargs : Kwargs) : Option PyVal :=
  match kwargs with
  | (_, v) :: _ => some v
  | [] => args.head?

/-- `VirtualDevice._update_state` (core.py lines 476-494).  Records the call
in `state`; for `set_`-prefixed names, extracts the value being set and
propagates it via `setterValues` (an `IndexError` when both argument lists
are empty). -/
def update_state (d : VirtualDevice) (name : String) (args : Args)
    (kwargs : Kwargs) : Except PyError VirtualDevice :=
  let d' := { d with state := dictSet d.state name (args, kwargs) }
  if pyStartsWith name "set_" then
    match extractSetValue args kwargs with
    | some value =>
      .ok { d' with
            values := setterValues d'.methods d'.values (pyDrop name 4) value }
    | none => .error .indexError
  else .ok d'

/-- Names found by ordinary Python attribute lookup on a `VirtualDevice`:
the instance attributes assigned in `__init__` plus the functions defined on
the class.  `__getattr__` runs only when ordinary lookup fails, so these
names never reach the override/capability/fallback dispatch. -/
def engineMembers : List String :=
  ["address", "state", "values", "attributes", "device_class", "methods",
   "get_call_history", "set_measurement_value", "set_local",
   "_analyze_device_class", "_get_default_value", "_update_state"]

/-- Result of attribute lookup on a `VirtualDevice`. -/
inductive AttrResult where
  | engineMember (name : String)
  | overrideVal (v : PyVal)
  | capabilityMethod (name : String)
  | fallbackMethod (name : String)

/-- `VirtualDevice.__getattr__` (core.py lines 496-517), composed with
Python's ordinary attribute lookup (instance and class dict first). -/
def getattrFull (d : VirtualDevice) (name : String) : AttrResult :=
  if name ∈ engineMembers then .engineMember name
  else
    match dictGet d.attributes name with
    | some v => .overrideVal v
    | none =>
      if (dictGet d.methods name).isSome then .capabilityMethod name
      else .fallbackMethod name

/-- Result of invoking `d.<name>(*args, **kwargs)`. -/
inductive InvokeResult where
  | ok (ret : PyVal) (d : VirtualDevice)
  | raised (e : PyError)
  /-- The name resolved to an engine member by ordinary lookup; the dynamic
  dispatch of `__getattr__` was not used. -/
  | engineMember (name : String)
  /-- The name resolved to a static attribute override, returned verbatim
  with no history entry; calling the returned value is outside the model. -/
  | overrideAttr (v : PyVal)

def InvokeResult.retVal : InvokeResult → Option PyVal
  | .ok r _ => some r
  | _ => none

def InvokeResult.device : InvokeResult → Option VirtualDevice
  | .ok _ d => some d
  | _ => none

/-- Invoking an operation through the dispatch of core.py lines 496-517:
a known capability runs `_update_state`, then returns the `values` entry if
present, else the precomputed default; an unknown name runs the permissive
`default_method`, which records the call and returns Python `None`. -/
def invoke (d : VirtualDevice) (name : String) (args : Args)
    (kwargs : Kwargs) : InvokeResult :=
  match getattrFull d name with
  | .engineMember n => .engineMember n
  | .overrideVal v => .overrideAttr v
  | .capabilityMethod _ =>
    match update_state d name args kwargs with
    | .error e => .raised e
    | .ok d' =>
      match dictGet d'.values name with
      | some v => .ok v d'
      | none =>
        match dictGet d'.methods name with
        | some mi => .ok mi.defaultValue d'
        | none => .raised .keyError
  | .fallbackMethod _ =>
    .ok .none { d with state := dictSet d.state name (args, kwargs) }

/-- Result of `get_call_history`: the whole dict, or the entry for one
name (`Option` because `dict.get` yields `None` for missing names). -/
inductive HistoryResult where
  | full (entries : List (String × CallEntry))
  | single (entry : Option CallEntry)

/-- `VirtualDevice.get_call_history` (core.py lines 519-523).  Note
`if method_name:` — passing the empty string is falsy in Python and
returns the full dict. -/
def get_call_history (d : VirtualDevice) (method_name : Option String) :
    HistoryResult :=
  match method_name with
  | some n => if n = "" then .full d.state else .single (dictGet d.state n)
  | none => .full d.state

/-- `VirtualDevice.set_measurement_value` (core.py lines 525-528). -/
def set_measurement_value (d : VirtualDevice) (method_name : String)
    (value : PyVal) : VirtualDevice :=
  if (dictGet d.methods method_name).isSome then
    { d with values := dictSet d.values method_name value }
  else d

/-- A single dispatched operation invocation. -/
structure Call where
  name : String
  args : Args
  kwargs : Kwargs

/-- Runs a sequence of invocations through the dispatch; `none` when any
invocation fails to complete normally through the dynamic dispatch. -/
def runCalls (d : VirtualDevice) : List Call → Option VirtualDevice
  | [] => some d
  | c :: rest =>
    match invoke d c.name c.args c.kwargs with
    | .ok _ d' => runCalls d' rest
    | _ => none

/-! ### The VISA resource layer -/

/-- Outcome of one attempt of an underlying transport operation:
`transient` is `pyvisa.VisaIOError` (the only exception
`_do_with_retry` catches), `fatalPyvisa` any other `pyvisa.Error`,
`fatalOther` any non-pyvisa exception. -/
inductive Outcome (α : Type) where
  | success (a : α)
  | transient
  | fatalPyvisa
  | fatalOther
deriving DecidableEq

/-- How a `_do_with_retry` call finishes. -/
inductive RetryResult (α : Type) where
  | ok (a : α)
  /-- `CommunicationError(address, idn)` raised on retry exhaustion. -/
  | commError (addr : String) (idn : String)
  /-- `AttributeError` raised: building the `CommunicationError` reads
  `self.idn`, which is unset during `__init__`'s identification query. -/
  | attrError
  | raisedPyvisa
  | raisedOther
  /-- The `while` loop never ran (negative `max_retries`); the method
  falls through and returns Python `None`. -/
  | fallthroughNone
deriving DecidableEq

/-- `raise CommunicationError(self.address, self.idn)`: building the
exception evaluates `self.idn`, which raises `AttributeError` when the
attribute was never assigned. -/
def raiseCommError {α : Type} (addr : String) (idn : Option String) :
    RetryResult α :=
  match idn with
  | some s => .commError addr s
  | none => .attrError

/-- The loop of `_do_with_retry` (core.py lines 143-151), from a state with
`remaining = max_retries - attempts` budget and `i` attempts already made
(the attempt budget is only consulted in the `VisaIOError` handler, so the
non-transient branches are the same in both equations).  Returns the
outcome together with the number of attempts of the underlying operation
that occurred.  `idn = none` models `self.idn` not yet assigned
(class-level `idn: str` is only an annotation). -/
def retryFrom {α : Type} (addr : String) (idn : Option String)
    (ops : Nat → Outcome α) : Nat → Nat → RetryResult α × Nat
  | 0, i =>
    match ops i with
    | .success a => (.ok a, 1)
    | .fatalPyvisa => (.raisedPyvisa, 1)
    | .fatalOther => (.raisedOther, 1)
    | .transient => (raiseCommError addr idn, 1)
  | r + 1, i =>
    match ops i with
    | .success a => (.ok a, 1)
    | .fatalPyvisa => (.raisedPyvisa, 1)
    | .fatalOther => (.raisedOther, 1)
    | .transient =>
      let p := retryFrom addr idn ops r (i + 1)
      (p.1, p.2 + 1)

/-- `VisaResource._do_with_retry` (core.py lines 141-151): `attempts = 0`;
`while attempts <= self.max_retries` — when `max_retries < 0` the loop body
never runs and the method returns `None` having made zero attempts. -/
def doWithRetry {α : Type} (addr : String) (idn : Option String)
    (maxRetries : Int) (ops : Nat → Outcome α) : RetryResult α × Nat :=
  if maxRetries < 0 then (.fallthroughNone, 0)
  else retryFrom addr idn ops maxRetries.toNat 0

/-- Observable outcome of one retried I/O method of `VisaResource`. -/
inductive IOOutcome (α : Type) where
  | value (a : α)
  /-- The method returned Python `None`. -/
  | noneValue
  | commError (addr : String) (idn : String)
  | attrError
  | raisedPyvisa
  | raisedOther
deriving DecidableEq

/-- `VisaResource.write_resource` (and `write_resource_raw`):
`self._do_with_retry(...)` with the result discarded; the method itself
returns `None`. -/
def write_resource (addr : String) (idn : Option String) (maxRetries : Int)
    (ops : Nat → Outcome Unit) : IOOutcome Unit × Nat :=
  match doWithRetry addr idn maxRetries ops with
  | (.ok _, n) => (.noneValue, n)
  | (.fallthroughNone, n) => (.noneValue, n)
  | (.commError a s, n) => (.commError a s, n)
  | (.attrError, n) => (.attrError, n)
  | (.raisedPyvisa, n) => (.raisedPyvisa, n)
  | (.raisedOther, n) => (.raisedOther, n)

def write_resource_raw (addr : String) (idn : Option String)
    (maxRetries : Int) (ops : Nat → Outcome Unit) : IOOutcome Unit × Nat :=
  write_resource addr idn maxRetries ops

/-- `VisaResource.query_resource` (core.py lines 291-310):
`response = self._do_with_retry(self._resource.query, ...)` then
`return response.strip()`.  When `_do_with_retry` falls through with
`None`, `None.strip()` raises `AttributeError`. -/
def query_resource (addr : String) (idn : Option String) (maxRetries : Int)
    (ops : Nat → Outcome String) : IOOutcome String × Nat :=
  match doWithRetry addr idn maxRetries ops with
  | (.ok raw, n) => (.value (pyStrip raw), n)
  | (.fallthroughNone, n) => (.attrError, n)
  | (.commError a s, n) => (.commError a s, n)
  | (.attrError, n) => (.attrError, n)
  | (.raisedPyvisa, n) => (.raisedPyvisa, n)
  | (.raisedOther, n) => (.raisedOther, n)

/-- `VisaResource.read_resource` (core.py lines 312-324): identical shape to
`query_resource` (read then `.strip()`). -/
def read_resource (addr : String) (idn : Option String) (maxRetries : Int)
    (ops : Nat → Outcome String) : IOOutcome String × Nat :=
  match doWithRetry addr idn maxRetries ops with
  | (.ok raw, n) => (.value (pyStrip raw), n)
  | (.fallthroughNone, n) => (.attrError, n)
  | (.commError a s, n) => (.commError a s, n)
  | (.attrError, n) => (.attrError, n)
  | (.raisedPyvisa, n) => (.raisedPyvisa, n)
  | (.raisedOther, n) => (.raisedOther, n)

/-- `VisaResource.read_resource_raw` / `read_resource_bytes`: return the
`_do_with_retry` result unmodified (so the `None` fall-through is returned
as-is).  Byte payloads are modelled as `List Nat`. -/
def read_resource_raw (addr : String) (idn : Option String)
    (maxRetries : Int) (ops : Nat → Outcome (List Nat)) :
    IOOutcome (List Nat) × Nat :=
  match doWithRetry addr idn maxRetries ops with
  | (.ok a, n) => (.value a, n)
  | (.fallthroughNone, n) => (.noneValue, n)
  | (.commError a s, n) => (.commError a s, n)
  | (.attrError, n) => (.attrError, n)
  | (.raisedPyvisa, n) => (.raisedPyvisa, n)
  | (.raisedOther, n) => (.raisedOther, n)

def read_resource_bytes (addr : String) (idn : Option String)
    (maxRetries : Int) (n : Nat) (ops : Nat → Outcome (List Nat)) :
    IOOutcome (List Nat) × Nat :=
  let _ := n
  read_resource_raw addr idn maxRetries ops

/-- Outcome of `rm.open_resource` in `VisaResource.__init__`. -/
inductive OpenOutcome where
  | opened
  | openFailPyvisa
deriving DecidableEq

/-- How `VisaResource.__init__` finishes, as observed by the caller. -/
inductive InitOutcome where
  | constructed (idn : String)
  /-- `ResourceConnectionError` raised (the `except pyvisa.Error` clause). -/
  | connectionError
  /-- `AttributeError` escaped: not a `pyvisa.Error`, so the `except`
  clause does not catch it. -/
  | attrErrorRaised
  /-- `CommunicationError` escaped: it extends `IOError`
  (errors.py lines 11-27), not `pyvisa.Error`, so `__init__` would not
  catch it. -/
  | commErrorRaised
  | otherRaised
deriving DecidableEq

/-- `VisaResource.__init__` (core.py lines 116-139): open the session, then
populate `self.idn` via `self.query_resource("*IDN?")`; a `pyvisa.Error`
raised inside the `try` becomes `ResourceConnectionError`.  During the
identification query `self.idn` is not yet assigned, so the query runs with
`idn = none`. -/
def visaInit (address : String) (maxRetries : Int) (openR : OpenOutcome)
    (idnOps : Nat → Outcome String) : InitOutcome :=
  match openR with
  | .openFailPyvisa => .connectionError
  | .opened =>
    match query_resource address none maxRetries idnOps with
    | (.value idn, _) => .constructed idn
    | (.noneValue, _) => .otherRaised
    | (.commError _ _, _) => .commErrorRaised
    | (.attrError, _) => .attrErrorRaised
    | (.raisedPyvisa, _) => .connectionError
    | (.raisedOther, _) => .otherRaised


/-! ### Lemmas about the dict model -/

theorem dictGet_dictSet_self {α : Type} (d : List (String × α)) (k : String)
    (v : α) : dictGet (dictSet d k v) k = some v := by
  induction d with
  | nil => simp [dictGet, dictSet]
  | cons e rest ih =>
    obtain ⟨k', v'⟩ := e
    by_cases h : k' = k <;> simp [dictGet, dictSet, h, ih]

theorem dictGet_dictSet_ne {α : Type} (d : List (String × α)) (k k' : String)
    (v : α) (h : k ≠ k') : dictGet (dictSet d k v) k' = dictGet d k' := by
  induction d with
  | nil => simp [dictGet, dictSet, h]
  | cons e rest ih =>
    obtain ⟨k'', v''⟩ := e
    by_cases h2 : k'' = k
    · subst h2
      simp [dictGet, dictSet, h]
    · simp [dictGet, dictSet, h2, ih]

theorem dictSet_fresh {α : Type} (d : List (String × α)) (k : String) (v : α)
    (h : dictGet d k = none) : dictSet d k v = d ++ [(k, v)] := by
  induction d with
  | nil => simp [dictSet]
  | cons e rest ih =>
    obtain ⟨k', v'⟩ := e
    by_cases h2 : k' = k
    · simp [dictGet, h2] at h
    · simp [dictGet, h2] at h
      simp [dictSet, h2, ih h]

/-! ### Lemmas about name surgery -/

theorem pyStartsWith_strCat (p f : String) :
    pyStartsWith (strCat p f) p = true := by
  unfold pyStartsWith strCat
  rw [List.isPrefixOf_iff_prefix]
  exact List.prefix_append _ _

theorem pyDrop_strCat_set (f : String) : pyDrop (strCat "set_" f) 4 = f := by
  unfold pyDrop strCat
  have h : (("set_" : String).data ++ f.data).drop 4 = f.data := by
    rw [show (4 : Nat) = (("set_" : String).data).length from rfl,
      List.drop_left]
  rw [h]

theorem not_set_of_get (n : String) (h : pyStartsWith n "get_" = true) :
    pyStartsWith n "set_" = false := by
  unfold pyStartsWith at h ⊢
  rw [List.isPrefixOf_iff_prefix] at h
  obtain ⟨t, ht⟩ := h
  rw [show ("get_" : String).data = ['g', 'e', 't', '_'] from rfl] at ht
  rw [← ht]
  simp only [show ("set_" : String).data = ['s', 'e', 't', '_'] from rfl,
    List.cons_append, List.isPrefixOf]
  rw [show (('s' : Char) == 'g') = false from by decide, Bool.false_and]

theorem not_set_of_measure (n : String) (h : pyStartsWith n "measure_" = true) :
    pyStartsWith n "set_" = false := by
  unfold pyStartsWith at h ⊢
  rw [List.isPrefixOf_iff_prefix] at h
  obtain ⟨t, ht⟩ := h
  rw [show ("measure_" : String).data = ['m', 'e', 'a', 's', 'u', 'r', 'e', '_'] from rfl] at ht
  rw [← ht]
  simp only [show ("set_" : String).data = ['s', 'e', 't', '_'] from rfl,
    List.cons_append, List.isPrefixOf]
  rw [show (('s' : Char) == 'm') = false from by decide, Bool.false_and]

theorem not_underscore_of_get (n : String) (h : pyStartsWith n "get_" = true) :
    pyStartsWith n "_" = false := by
  unfold pyStartsWith at h ⊢
  rw [List.isPrefixOf_iff_prefix] at h
  obtain ⟨t, ht⟩ := h
  rw [show ("get_" : String).data = ['g', 'e', 't', '_'] from rfl] at ht
  rw [← ht]
  simp only [show ("_" : String).data = ['_'] from rfl,
    List.cons_append, List.isPrefixOf]
  rw [show (('_' : Char) == 'g') = false from by decide, Bool.false_and]

theorem not_underscore_of_measure (n : String) (h : pyStartsWith n "measure_" = true) :
    pyStartsWith n "_" = false := by
  unfold pyStartsWith at h ⊢
  rw [List.isPrefixOf_iff_prefix] at h
  obtain ⟨t, ht⟩ := h
  rw [show ("measure_" : String).data = ['m', 'e', 'a', 's', 'u', 'r', 'e', '_'] from rfl] at ht
  rw [← ht]
  simp only [show ("_" : String).data = ['_'] from rfl,
    List.cons_append, List.isPrefixOf]
  rw [show (('_' : Char) == 'm') = false from by decide, Bool.false_and]

theorem strCat_set_ne_get (f : String) :
    strCat "set_" f ≠ strCat "get_" f := by
  intro h
  have h2 := congrArg String.data h
  simp only [strCat] at h2
  simp [show ("set_" : String).data = ['s', 'e', 't', '_'] from rfl,
    show ("get_" : String).data = ['g', 'e', 't', '_'] from rfl] at h2

theorem strCat_set_ne_measure (f : String) :
    strCat "set_" f ≠ strCat "measure_" f := by
  intro h
  have h2 := congrArg String.data h
  simp only [strCat] at h2
  simp [show ("set_" : String).data = ['s', 'e', 't', '_'] from rfl,
    show ("measure_" : String).data =
      ['m', 'e', 'a', 's', 'u', 'r', 'e', '_'] from rfl] at h2

/-! ### Lemmas about stripping whitespace -/

theorem trailing_trim_cons {α : Type} (p : α → Bool) (c : α) (l : List α) :
    ((c :: l).reverse.dropWhile p).reverse =
      if (l.reverse.dropWhile p).isEmpty then (if p c then [] else [c])
      else c :: (l.reverse.dropWhile p).reverse := by
  rw [List.reverse_cons, List.dropWhile_append]
  by_cases h : (l.reverse.dropWhile p).isEmpty
  · rw [if_pos h, if_pos h]
    by_cases hp : p c
    · simp [List.dropWhile, hp]
    · simp [List.dropWhile, hp]
  · rw [if_neg h, if_neg h, List.reverse_append]
    rfl

theorem dropWhile_reverse_comm {α : Type} (p : α → Bool) (l : List α) :
    ((l.dropWhile p).reverse.dropWhile p).reverse =
      ((l.reverse.dropWhile p).reverse).dropWhile p := by
  induction l with
  | nil => rfl
  | cons c l ih =>
    by_cases hp : p c
    · rw [List.dropWhile_cons, if_pos hp, ih, trailing_trim_cons]
      by_cases h0 : (l.reverse.dropWhile p).isEmpty
      · rw [if_pos h0, if_pos hp]
        rw [List.isEmpty_iff] at h0
        rw [h0]
        rfl
      · rw [if_neg h0, List.dropWhile_cons, if_pos hp]
    · rw [List.dropWhile_cons, if_neg hp, trailing_trim_cons]
      by_cases h0 : (l.reverse.dropWhile p).isEmpty
      · rw [if_pos h0, if_neg hp, List.dropWhile_cons, if_neg hp]
      · rw [if_neg h0, List.dropWhile_cons, if_neg hp]

/-- `str.strip()` is the same as removing the trailing whitespace run and
then also the leading one. -/
theorem pyStrip_eq_lead_of_trail (s : String) :
    pyStrip s = specLeadingTrim (specTrailingTrim s) := by
  unfold pyStrip specLeadingTrim specTrailingTrim
  exact congrArg String.mk (dropWhile_reverse_comm isPySpace s.data)

/-! ### Lemmas about the retry loop -/

theorem retryFrom_all_transient {α : Type} (addr : String)
    (idn : Option String) (ops : Nat → Outcome α)
    (h : ∀ i, ops i = .transient) :
    ∀ (r i : Nat), retryFrom addr idn ops r i =
      (raiseCommError addr idn, r + 1) := by
  intro r
  induction r with
  | zero =>
    intro i
    simp only [retryFrom, h i]
  | succ r ih =>
    intro i
    simp only [retryFrom, h i, ih (i + 1)]

theorem raiseCommError_ne_fallthrough {α : Type} (addr : String)
    (idn : Option String) :
    (raiseCommError addr idn : RetryResult α) ≠ .fallthroughNone := by
  cases idn with
  | some s => exact fun hc => RetryResult.noConfusion hc
  | none => exact fun hc => RetryResult.noConfusion hc

theorem retryFrom_ne_fallthrough {α : Type} (addr : String)
    (idn : Option String) (ops : Nat → Outcome α) :
    ∀ (r i : Nat), (retryFrom addr idn ops r i).1 ≠ .fallthroughNone := by
  intro r
  induction r with
  | zero =>
    intro i
    cases hi : ops i with
    | success a => simp only [retryFrom, hi]; exact fun hc => RetryResult.noConfusion hc
    | fatalPyvisa => simp only [retryFrom, hi]; exact fun hc => RetryResult.noConfusion hc
    | fatalOther => simp only [retryFrom, hi]; exact fun hc => RetryResult.noConfusion hc
    | transient =>
      simp only [retryFrom, hi]
      exact raiseCommError_ne_fallthrough addr idn
  | succ r ih =>
    intro i
    cases hi : ops i with
    | success a => simp only [retryFrom, hi]; exact fun hc => RetryResult.noConfusion hc
    | fatalPyvisa => simp only [retryFrom, hi]; exact fun hc => RetryResult.noConfusion hc
    | fatalOther => simp only [retryFrom, hi]; exact fun hc => RetryResult.noConfusion hc
    | transient =>
      simp only [retryFrom, hi]
      exact ih (i + 1)

theorem raiseCommError_ne_ok {α : Type} (addr : String)
    (idn : Option String) (a : α) :
    (raiseCommError addr idn : RetryResult α) ≠ .ok a := by
  cases idn with
  | some s => exact fun hc => RetryResult.noConfusion hc
  | none => exact fun hc => RetryResult.noConfusion hc

theorem retryFrom_ok_from_ops {α : Type} (addr : String)
    (idn : Option String) (ops : Nat → Outcome α) :
    ∀ (r i : Nat) (a : α), (retryFrom addr idn ops r i).1 = .ok a →
      ∃ j, ops j = .success a := by
  intro r
  induction r with
  | zero =>
    intro i a
    cases hi : ops i with
    | success b =>
      simp only [retryFrom, hi]
      intro hb
      cases hb
      exact ⟨i, hi⟩
    | fatalPyvisa => simp only [retryFrom, hi]; intro hb; cases hb
    | fatalOther => simp only [retryFrom, hi]; intro hb; cases hb
    | transient =>
      simp only [retryFrom, hi]
      intro hb
      exact absurd hb (raiseCommError_ne_ok addr idn a)
  | succ r ih =>
    intro i a
    cases hi : ops i with
    | success b =>
      simp only [retryFrom, hi]
      intro hb
      cases hb
      exact ⟨i, hi⟩
    | fatalPyvisa => simp only [retryFrom, hi]; intro hb; cases hb
    | fatalOther => simp only [retryFrom, hi]; intro hb; cases hb
    | transient =>
      simp only [retryFrom, hi]
      exact ih (i + 1) a

theorem retryFrom_fatal_immediate {α : Type} (addr : String)
    (idn : Option String) (ops : Nat → Outcome α) :
    ∀ (j r i : Nat), j ≤ r → (∀ t, t < j → ops (i + t) = .transient) →
      (ops (i + j) = .fatalPyvisa →
        retryFrom addr idn ops r i = (.raisedPyvisa, j + 1)) ∧
      (ops (i + j) = .fatalOther →
        retryFrom addr idn ops r i = (.raisedOther, j + 1)) := by
  intro j
  induction j with
  | zero =>
    intro r i _ _
    constructor
    · intro hf
      rw [Nat.add_zero] at hf
      cases r with
      | zero => simp only [retryFrom, hf]
      | succ r => simp only [retryFrom, hf]
    · intro hf
      rw [Nat.add_zero] at hf
      cases r with
      | zero => simp only [retryFrom, hf]
      | succ r => simp only [retryFrom, hf]
  | succ j ih =>
    intro r i hle htr
    have h0 : ops i = .transient := by
      have := htr 0 (Nat.succ_pos j)
      rwa [Nat.add_zero] at this
    match r, hle with
    | r + 1, hle =>
      have hle' : j ≤ r := Nat.lt_succ_iff.mp hle
      have htr' : ∀ t, t < j → ops (i + 1 + t) = .transient := by
        intro t ht
        have : i + 1 + t = i + (t + 1) := by omega
        rw [this]
        exact htr (t + 1) (Nat.succ_lt_succ ht)
      have hidx : i + 1 + j = i + (j + 1) := by omega
      obtain ⟨ihp, iho⟩ := ih r (i + 1) hle' htr'
      rw [hidx] at ihp iho
      constructor
      · intro hf
        simp only [retryFrom, h0, ihp hf]
      · intro hf
        simp only [retryFrom, h0, iho hf]


/-! ### Lemmas about the dispatch -/

theorem getattrFull_capability (d : VirtualDevice) (name : String)
    (h1 : name ∉ engineMembers) (h2 : dictGet d.attributes name = none)
    (h3 : (dictGet d.methods name).isSome) :
    getattrFull d name = .capabilityMethod name := by
  simp [getattrFull, h1, h2, h3]

theorem getattrFull_fallback (d : VirtualDevice) (name : String)
    (h1 : name ∉ engineMembers) (h2 : dictGet d.attributes name = none)
    (h3 : dictGet d.methods name = none) :
    getattrFull d name = .fallbackMethod name := by
  simp [getattrFull, h1, h2, h3]

theorem update_state_not_set (d : VirtualDevice) (name : String)
    (args : Args) (kwargs : Kwargs) (h : pyStartsWith name "set_" = false) :
    update_state d name args kwargs =
      .ok { d with state := dictSet d.state name (args, kwargs) } := by
  simp [update_state, h]

theorem update_state_set (d : VirtualDevice) (name : String) (args : Args)
    (kwargs : Kwargs) (v : PyVal) (h : pyStartsWith name "set_" = true)
    (hv : extractSetValue args kwargs = some v) :
    update_state d name args kwargs =
      .ok { d with state := dictSet d.state name (args, kwargs),
                   values := setterValues d.methods d.values (pyDrop name 4) v } := by
  simp [update_state, h, hv]

theorem update_state_ok (d : VirtualDevice) (name : String) (args : Args)
    (kwargs : Kwargs)
    (h3 : pyStartsWith name "set_" = true → (kwargs ≠ [] ∨ args ≠ [])) :
    ∃ d', update_state d name args kwargs = .ok d' ∧
      d'.state = dictSet d.state name (args, kwargs) ∧
      d'.attributes = d.attributes ∧ d'.methods = d.methods := by
  by_cases hset : pyStartsWith name "set_"
  · have hv : ∃ v, extractSetValue args kwargs = some v := by
      match kwargs with
      | (k, w) :: rest => exact ⟨w, rfl⟩
      | [] =>
        match args with
        | [] => rcases h3 hset with hc | hc <;> exact absurd rfl hc
        | a :: rest => exact ⟨a, rfl⟩
    obtain ⟨v, hv⟩ := hv
    refine ⟨_, update_state_set d name args kwargs v hset hv, ?_, ?_, ?_⟩ <;> rfl
  · rw [Bool.not_eq_true] at hset
    refine ⟨_, update_state_not_set d name args kwargs hset, ?_, ?_, ?_⟩ <;> rfl

theorem invoke_records (d : VirtualDevice) (name : String) (args : Args)
    (kwargs : Kwargs) (h1 : name ∉ engineMembers)
    (h2 : dictGet d.attributes name = none)
    (h3 : pyStartsWith name "set_" = true → (kwargs ≠ [] ∨ args ≠ [])) :
    ∃ r d', invoke d name args kwargs = .ok r d' ∧
      d'.state = dictSet d.state name (args, kwargs) ∧
      d'.attributes = d.attributes ∧ d'.methods = d.methods := by
  cases hm : dictGet d.methods name with
  | none =>
    refine ⟨.none, { d with state := dictSet d.state name (args, kwargs) },
      ?_, rfl, rfl, rfl⟩
    simp only [invoke, getattrFull_fallback d name h1 h2 hm]
  | some mi =>
    obtain ⟨d', hup, hst, hat, hme⟩ := update_state_ok d name args kwargs h3
    have hcap := getattrFull_capability d name h1 h2 (by simp [hm])
    cases hv : dictGet d'.values name with
    | some w =>
      exact ⟨w, d', by simp only [invoke, hcap, hup, hv], hst, hat, hme⟩
    | none =>
      refine ⟨mi.defaultValue, d', ?_, hst, hat, hme⟩
      have hm' : dictGet d'.methods name = some mi := by rw [hme, hm]
      simp only [invoke, hcap, hup, hv, hm']


/-! ### Lemmas about class analysis and call sequences -/

theorem analyze_foldl_preserve (cls : List (String × PyType)) :
    ∀ (acc : List (String × MethodInfo) × List (String × PyVal)) (k : String),
      k ∉ cls.map Prod.fst →
      dictGet (cls.foldl analyzeStep acc).1 k = dictGet acc.1 k ∧
      dictGet (cls.foldl analyzeStep acc).2 k = dictGet acc.2 k := by
  induction cls with
  | nil =>
    intro acc k _
    exact ⟨rfl, rfl⟩
  | cons e rest ih =>
    intro acc k hk
    rw [List.map_cons, List.mem_cons] at hk
    push_neg at hk
    obtain ⟨hk1, hk2⟩ := hk
    have hne : e.1 ≠ k := fun h => hk1 h.symm
    rw [List.foldl_cons]
    obtain ⟨ih1, ih2⟩ := ih (analyzeStep acc e) k hk2
    constructor
    · rw [ih1]
      by_cases hu : pyStartsWith e.1 "_"
      · simp [analyzeStep, hu]
      · simp [analyzeStep, hu, dictGet_dictSet_ne _ _ _ _ hne]
    · rw [ih2]
      by_cases hu : pyStartsWith e.1 "_"
      · simp [analyzeStep, hu]
      · by_cases hgm : (pyStartsWith e.1 "measure_" || pyStartsWith e.1 "get_")
        · simp [analyzeStep, hu, hgm, dictGet_dictSet_ne _ _ _ _ hne]
        · simp [analyzeStep, hu, hgm]

theorem analyze_foldl_mem (cls : List (String × PyType)) :
    ∀ (acc : List (String × MethodInfo) × List (String × PyVal))
      (name : String) (rt : PyType),
      (cls.map Prod.fst).Nodup → (name, rt) ∈ cls →
      pyStartsWith name "_" = false →
      dictGet (cls.foldl analyzeStep acc).1 name =
        some ⟨rt, get_default_value rt⟩ ∧
      ((pyStartsWith name "measure_" || pyStartsWith name "get_") = true →
        dictGet (cls.foldl analyzeStep acc).2 name =
          some (get_default_value rt)) := by
  induction cls with
  | nil =>
    intro acc name rt _ hmem _
    cases hmem
  | cons e rest ih =>
    intro acc name rt hnd hmem hu
    rw [List.map_cons, List.nodup_cons] at hnd
    obtain ⟨hne, hnd'⟩ := hnd
    rw [List.foldl_cons]
    rcases List.mem_cons.mp hmem with heq | hmem'
    · subst heq
      obtain ⟨p1, p2⟩ :=
        analyze_foldl_preserve rest (analyzeStep acc (name, rt)) name hne
      constructor
      · rw [p1]
        simp [analyzeStep, hu, dictGet_dictSet_self]
      · intro hgm
        rw [p2]
        simp [analyzeStep, hu, hgm, dictGet_dictSet_self]
    · exact ih (analyzeStep acc e) name rt hnd' hmem' hu

theorem runCalls_distinct (cs : List Call) :
    ∀ (d : VirtualDevice),
      (∀ c ∈ cs, c.name ∉ engineMembers) →
      (∀ c ∈ cs, dictGet d.attributes c.name = none) →
      (∀ c ∈ cs, pyStartsWith c.name "set_" = true →
        (c.kwargs ≠ [] ∨ c.args ≠ [])) →
      (∀ c ∈ cs, dictGet d.state c.name = none) →
      (cs.map Call.name).Nodup →
      ∃ d', runCalls d cs = some d' ∧
        d'.state = d.state ++ cs.map (fun c => (c.name, (c.args, c.kwargs))) ∧
        d'.attributes = d.attributes := by
  induction cs with
  | nil =>
    intro d _ _ _ _ _
    exact ⟨d, rfl, by simp, rfl⟩
  | cons c rest ih =>
    intro d hmem hover hset hfresh hnd
    obtain ⟨r, d', hin, hst, hat, hme⟩ :=
      invoke_records d c.name c.args c.kwargs
        (hmem c (List.mem_cons_self c rest))
        (hover c (List.mem_cons_self c rest))
        (hset c (List.mem_cons_self c rest))
    rw [List.map_cons, List.nodup_cons] at hnd
    obtain ⟨hnotin, hnd'⟩ := hnd
    have hfr := hfresh c (List.mem_cons_self c rest)
    have hfresh' : ∀ x ∈ rest, dictGet d'.state x.name = none := by
      intro x hx
      have hcx : c.name ≠ x.name := by
        intro hc
        exact hnotin (hc ▸ List.mem_map_of_mem Call.name hx)
      rw [hst, dictGet_dictSet_ne _ _ _ _ hcx]
      exact hfresh x (List.mem_cons_of_mem c hx)
    have hover' : ∀ x ∈ rest, dictGet d'.attributes x.name = none := by
      intro x hx
      rw [hat]
      exact hover x (List.mem_cons_of_mem c hx)
    obtain ⟨d'', hrun, hst'', hat''⟩ := ih d'
      (fun x hx => hmem x (List.mem_cons_of_mem c hx)) hover'
      (fun x hx => hset x (List.mem_cons_of_mem c hx)) hfresh' hnd'
    refine ⟨d'', ?_, ?_, hat''.trans hat⟩
    · simp only [runCalls, hin, hrun]
    · rw [hst'', hst, dictSet_fresh _ _ _ hfr, List.map_cons,
        List.append_assoc]
      rfl


/-! ### The claims -/

/-- C3: `VisaResource` construction either yields a fully open handle or
fails, but when the session opens and the `*IDN?` identification query
raises a transport error (`pyvisa.VisaIOError`) on every attempt, the
constructor does not fail with `ConnectionError` as claimed: exhausting the
retry budget evaluates `self.idn` — never assigned at that point — so an
`AttributeError` escapes instead (while a session-establishment failure
does produce the claimed `ConnectionError`). -/
theorem c3_init_identification_fault_raises_attribute_error :
    visaInit "GPIB0::5::INSTR" 0 .opened (fun _ => .transient) =
      .attrErrorRaised ∧
    visaInit "GPIB0::5::INSTR" 0 .openFailPyvisa (fun _ => .transient) =
      .connectionError ∧
    InitOutcome.attrErrorRaised ≠ InitOutcome.connectionError :=
  ⟨rfl, rfl, by decide⟩

/-- C7: invoking an operation name that is neither an engine member, nor a
static attribute override, nor an introspected capability never raises: the
call returns Python `None`, the device records it in the call-history
table, and `get_call_history()` with no filter exposes the entry. -/
theorem c7_unknown_operation_is_permissive (d : VirtualDevice)
    (name : String) (args : Args) (kwargs : Kwargs)
    (h1 : name ∉ engineMembers) (h2 : dictGet d.attributes name = none)
    (h3 : dictGet d.methods name = none) :
    invoke d name args kwargs =
      .ok .none { d with state := dictSet d.state name (args, kwargs) } ∧
    dictGet (dictSet d.state name (args, kwargs)) name =
      some (args, kwargs) ∧
    get_call_history { d with state := dictSet d.state name (args, kwargs) }
      none = .full (dictSet d.state name (args, kwargs)) := by
  refine ⟨?_, dictGet_dictSet_self _ _ _, rfl⟩
  simp only [invoke, getattrFull_fallback d name h1 h2 h3]

theorem c7_witness :
    invoke (VirtualDevice.create "virtualdevice" none []) "beep"
        [PyVal.int 3] [] =
      .ok .none { VirtualDevice.create "virtualdevice" none [] with
                  state := dictSet [] "beep" (([PyVal.int 3], []) : CallEntry) } ∧
    dictGet (dictSet [] "beep" (([PyVal.int 3], []) : CallEntry)) "beep" =
      some (([PyVal.int 3], []) : CallEntry) ∧
    get_call_history
      { VirtualDevice.create "virtualdevice" none [] with
        state := dictSet [] "beep" (([PyVal.int 3], []) : CallEntry) } none =
      .full (dictSet [] "beep" (([PyVal.int 3], []) : CallEntry)) :=
  c7_unknown_operation_is_permissive _ "beep" _ _ (by decide) rfl rfl

/-- C8: a static attribute override whose name collides with one of the
engine's own members (`address`, `state`, `values`, `attributes`,
`device_class`, `methods`, `get_call_history`, `set_measurement_value`,
`set_local`) is never returned by attribute lookup: ordinary lookup finds
the engine member first, and `__getattr__` — the only place overrides are
consulted — runs only when ordinary lookup fails. -/
theorem c8_engine_members_shadow_overrides (d : VirtualDevice)
    (name : String)
    (h : name ∈ ["address", "state", "values", "attributes", "device_class",
      "methods", "get_call_history", "set_measurement_value", "set_local"]) :
    getattrFull d name = .engineMember name ∧
    ∀ v, getattrFull d name ≠ .overrideVal v := by
  have h1 : getattrFull d name = .engineMember name := by
    fin_cases h <;> rfl
  exact ⟨h1, fun v hv => by rw [h1] at hv; exact AttrResult.noConfusion hv⟩

theorem c8_witness :
    getattrFull
      { VirtualDevice.create "virtualdevice" none
          [("state", PyVal.int 7)] with values := [] } "state" =
      .engineMember "state" ∧
    ∀ v, getattrFull
      { VirtualDevice.create "virtualdevice" none
          [("state", PyVal.int 7)] with values := [] } "state" ≠
        .overrideVal v :=
  c8_engine_members_shadow_overrides _ "state" (by decide)

/-- C9: `set_measurement_value(name, v)` with an unknown name is a silent
no-op (the device is unchanged, nothing raises); with a known capability
name it sets exactly that state-table entry to `v` (leaving the call
history and every other entry untouched), after which invoking that
getter/measurement capability returns `v`. -/
theorem c9_set_measurement_value_frame :
    (∀ (d : VirtualDevice) (n : String) (v : PyVal),
      dictGet d.methods n = none → set_measurement_value d n v = d) ∧
    (∀ (d : VirtualDevice) (n : String) (v : PyVal) (mi : MethodInfo),
      dictGet d.methods n = some mi →
      (set_measurement_value d n v).state = d.state ∧
      (set_measurement_value d n v).values = dictSet d.values n v ∧
      (∀ m, m ≠ n →
        dictGet (set_measurement_value d n v).values m = dictGet d.values m) ∧
      (n ∉ engineMembers → dictGet d.attributes n = none →
        (pyStartsWith n "get_" = true ∨ pyStartsWith n "measure_" = true) →
        ∃ d', invoke (set_measurement_value d n v) n [] [] = .ok v d')) := by
  constructor
  · intro d n v h
    simp [set_measurement_value, h]
  · intro d n v mi h
    have hs : set_measurement_value d n v =
        { d with values := dictSet d.values n v } := by
      simp [set_measurement_value, h]
    refine ⟨by rw [hs], by rw [hs], ?_, ?_⟩
    · intro m hm
      rw [hs]
      exact dictGet_dictSet_ne _ _ _ _ (Ne.symm hm)
    · intro hmem hover hgm
      have hnotset : pyStartsWith n "set_" = false := by
        rcases hgm with hg | hm'
        · exact not_set_of_get n hg
        · exact not_set_of_measure n hm'
      rw [hs]
      have hcap := getattrFull_capability
        { d with values := dictSet d.values n v } n hmem hover (by simp [h])
      have hup := update_state_not_set
        { d with values := dictSet d.values n v } n [] [] hnotset
      have hval : dictGet
          ({ d with values := dictSet d.values n v
                    state := dictSet d.state n ([], []) }).values n = some v :=
        dictGet_dictSet_self _ _ _
      exact ⟨{ d with values := dictSet d.values n v
                      state := dictSet d.state n ([], []) },
             by simp only [invoke, hcap, hup, hval]⟩

theorem c9_witness :
    (set_measurement_value (VirtualDevice.create "v"
        (some [("measure_voltage", PyType.floatT)]) []) "nope"
        (PyVal.float 3) =
      VirtualDevice.create "v" (some [("measure_voltage", PyType.floatT)]) []) ∧
    (∃ d', invoke (set_measurement_value (VirtualDevice.create "v"
        (some [("measure_voltage", PyType.floatT)]) []) "measure_voltage"
        (PyVal.float 3)) "measure_voltage" [] [] = .ok (PyVal.float 3) d') := by
  constructor
  · exact c9_set_measurement_value_frame.1
      (VirtualDevice.create "v" (some [("measure_voltage", PyType.floatT)]) [])
      "nope" (PyVal.float 3) rfl
  · exact (c9_set_measurement_value_frame.2
      (VirtualDevice.create "v" (some [("measure_voltage", PyType.floatT)]) [])
      "measure_voltage" (PyVal.float 3)
      ⟨PyType.floatT, PyVal.float 0⟩ rfl).2.2.2 (by decide) rfl
      (Or.inr (by decide))

theorem strCat_get_ne_measure (f : String) :
    strCat "get_" f ≠ strCat "measure_" f := by
  intro h
  have h2 := congrArg String.data h
  simp only [strCat] at h2
  simp [show ("get_" : String).data = ['g', 'e', 't', '_'] from rfl,
    show ("measure_" : String).data =
      ['m', 'e', 'a', 's', 'u', 'r', 'e', '_'] from rfl] at h2

theorem dictGet_setterValues_ne (m : List (String × MethodInfo))
    (vs : List (String × PyVal)) (field : String) (v : PyVal) (k : String)
    (h1 : k ≠ strCat "get_" field) (h2 : k ≠ strCat "measure_" field) :
    dictGet (setterValues m vs field v) k = dictGet vs k := by
  unfold setterValues
  by_cases hg : (dictGet m (strCat "get_" field)).isSome <;>
    by_cases hm : (dictGet m (strCat "measure_" field)).isSome <;>
    simp [hg, hm, dictGet_dictSet_ne _ _ _ _ (Ne.symm h1),
      dictGet_dictSet_ne _ _ _ _ (Ne.symm h2)]

theorem dictGet_setterValues_get (m : List (String × MethodInfo))
    (vs : List (String × PyVal)) (field : String) (v : PyVal)
    (hg : (dictGet m (strCat "get_" field)).isSome) :
    dictGet (setterValues m vs field v) (strCat "get_" field) = some v := by
  unfold setterValues
  by_cases hm : (dictGet m (strCat "measure_" field)).isSome
  · simp [hg, hm,
      dictGet_dictSet_ne _ _ _ _ (Ne.symm (strCat_get_ne_measure field)),
      dictGet_dictSet_self]
  · simp [hg, hm, dictGet_dictSet_self]

theorem dictGet_setterValues_measure (m : List (String × MethodInfo))
    (vs : List (String × PyVal)) (field : String) (v : PyVal)
    (hm : (dictGet m (strCat "measure_" field)).isSome) :
    dictGet (setterValues m vs field v) (strCat "measure_" field) = some v := by
  unfold setterValues
  by_cases hg : (dictGet m (strCat "get_" field)).isSome <;>
    simp [hg, hm, dictGet_dictSet_self]

/-- C5: the default value computed from a declared return type is the
documented zero value for each category, every `get_`/`measure_` capability
of an introspected class is seeded with that default at construction, and
invoking such a capability before any setter or override returns it. -/
theorem c5_default_values_and_seeding :
    (get_default_value .boolT = .bool false ∧
     get_default_value .intT = .int 0 ∧
     get_default_value .floatT = .float 0 ∧
     get_default_value .strT = .str "" ∧
     get_default_value .listGeneric = .list [] ∧
     get_default_value .noneAnn = .none ∧
     get_default_value .other = .none) ∧
    (∀ (addr : String) (cls : List (String × PyType)) (kw : Kwargs)
       (name : String) (rt : PyType),
      (cls.map Prod.fst).Nodup → (name, rt) ∈ cls →
      (pyStartsWith name "get_" = true ∨
        pyStartsWith name "measure_" = true) →
      dictGet (VirtualDevice.create addr (some cls) kw).values name =
        some (get_default_value rt) ∧
      (name ∉ engineMembers → dictGet kw name = none →
        ∃ d', invoke (VirtualDevice.create addr (some cls) kw) name [] [] =
          .ok (get_default_value rt) d')) := by
  refine ⟨⟨rfl, rfl, rfl, rfl, rfl, rfl, rfl⟩, ?_⟩
  intro addr cls kw name rt hnd hmem hgm
  have hu : pyStartsWith name "_" = false := by
    rcases hgm with hg | hm
    · exact not_underscore_of_get name hg
    · exact not_underscore_of_measure name hm
  have hgm' : (pyStartsWith name "measure_" || pyStartsWith name "get_") =
      true := by
    rcases hgm with hg | hm
    · simp [hg]
    · simp [hm]
  obtain ⟨hmeth, hval⟩ := analyze_foldl_mem cls ([], []) name rt hnd hmem hu
  have hval' := hval hgm'
  constructor
  · exact hval'
  · intro hmem2 hover
    have hnotset : pyStartsWith name "set_" = false := by
      rcases hgm with hg | hm
      · exact not_set_of_get name hg
      · exact not_set_of_measure name hm
    have hcap := getattrFull_capability (VirtualDevice.create addr (some cls) kw)
      name hmem2 hover
      (show (dictGet (VirtualDevice.create addr (some cls) kw).methods
          name).isSome from by
        show (dictGet (cls.foldl analyzeStep ([], [])).1 name).isSome
        rw [hmeth]
        rfl)
    have hup := update_state_not_set (VirtualDevice.create addr (some cls) kw)
      name [] [] hnotset
    have hv2 : dictGet
        ({ VirtualDevice.create addr (some cls) kw with
           state := dictSet (VirtualDevice.create addr (some cls) kw).state
             name ([], []) }).values name = some (get_default_value rt) := by
      show dictGet (cls.foldl analyzeStep ([], [])).2 name =
        some (get_default_value rt)
      exact hval'
    exact ⟨{ VirtualDevice.create addr (some cls) kw with
             state := dictSet (VirtualDevice.create addr (some cls) kw).state
               name ([], []) },
           by simp only [invoke, hcap, hup, hv2]⟩

theorem c5_witness :
    dictGet (VirtualDevice.create "v"
      (some [("get_voltage", PyType.floatT), ("measure_current", PyType.floatT),
             ("set_voltage", PyType.noneAnn)]) []).values "get_voltage" =
      some (get_default_value PyType.floatT) ∧
    ∃ d', invoke (VirtualDevice.create "v"
      (some [("get_voltage", PyType.floatT), ("measure_current", PyType.floatT),
             ("set_voltage", PyType.noneAnn)]) []) "get_voltage" [] [] =
      .ok (get_default_value PyType.floatT) d' := by
  have h := c5_default_values_and_seeding.2 "v"
    [("get_voltage", PyType.floatT), ("measure_current", PyType.floatT),
     ("set_voltage", PyType.noneAnn)] [] "get_voltage" PyType.floatT
    (by decide) (by decide) (Or.inl (by decide))
  exact ⟨h.1, h.2 (by decide) rfl⟩

/-- C4 (corrected): on a device whose capability table contains
`set_<field>`, calling `set_<field>(v)` with `v` as the sole positional or
sole keyword argument writes `v` into the state-table entries of whichever
of `get_<field>` / `measure_<field>` are known capabilities, so invoking
those afterwards returns `v` (and leaves the state table otherwise
untouched); the setter's own return value is the precomputed default for
its declared return type — not unconditionally `None` as claimed. -/
theorem c4_setter_roundtrip (d : VirtualDevice) (field : String) (v : PyVal)
    (miS : MethodInfo)
    (hS : dictGet d.methods (strCat "set_" field) = some miS)
    (hSov : dictGet d.attributes (strCat "set_" field) = none)
    (hSmem : strCat "set_" field ∉ engineMembers)
    (hSval : dictGet d.values (strCat "set_" field) = none)
    (args : Args) (kwargs : Kwargs)
    (hform : (args = [v] ∧ kwargs = []) ∨
      (∃ kname, args = [] ∧ kwargs = [(kname, v)])) :
    ∃ d', invoke d (strCat "set_" field) args kwargs =
        .ok miS.defaultValue d' ∧
      d'.attributes = d.attributes ∧ d'.methods = d.methods ∧
      ((dictGet d.methods (strCat "get_" field)).isSome →
        dictGet d'.values (strCat "get_" field) = some v) ∧
      ((dictGet d.methods (strCat "measure_" field)).isSome →
        dictGet d'.values (strCat "measure_" field) = some v) ∧
      ((dictGet d.methods (strCat "get_" field)).isSome →
        strCat "get_" field ∉ engineMembers →
        dictGet d.attributes (strCat "get_" field) = none →
        ∃ d'', invoke d' (strCat "get_" field) [] [] = .ok v d'' ∧
          d''.values = d'.values) ∧
      ((dictGet d.methods (strCat "measure_" field)).isSome →
        strCat "measure_" field ∉ engineMembers →
        dictGet d.attributes (strCat "measure_" field) = none →
        ∃ d'', invoke d' (strCat "measure_" field) [] [] = .ok v d'' ∧
          d''.values = d'.values) := by
  have hset : pyStartsWith (strCat "set_" field) "set_" = true :=
    pyStartsWith_strCat _ _
  have hext : extractSetValue args kwargs = some v := by
    rcases hform with ⟨ha, hk⟩ | ⟨kname, ha, hk⟩ <;> subst ha <;> subst hk <;>
      rfl
  have hup := update_state_set d (strCat "set_" field) args kwargs v hset hext
  rw [pyDrop_strCat_set field] at hup
  have hcap := getattrFull_capability d (strCat "set_" field) hSmem hSov
    (by simp [hS])
  refine ⟨{ d with
            state := dictSet d.state (strCat "set_" field) (args, kwargs)
            values := setterValues d.methods d.values field v },
    ?_, rfl, rfl, ?_, ?_, ?_, ?_⟩
  · have hvalN : dictGet (setterValues d.methods d.values field v)
        (strCat "set_" field) = none := by
      rw [dictGet_setterValues_ne d.methods d.values field v _
        (strCat_set_ne_get field) (strCat_set_ne_measure field)]
      exact hSval
    simp only [invoke, hcap, hup, hvalN, hS]
  · intro hg
    exact dictGet_setterValues_get d.methods d.values field v hg
  · intro hm
    exact dictGet_setterValues_measure d.methods d.values field v hm
  · intro hg hGmem hGov
    have hcap2 := getattrFull_capability
      { d with state := dictSet d.state (strCat "set_" field) (args, kwargs)
               values := setterValues d.methods d.values field v }
      (strCat "get_" field) hGmem hGov hg
    have hnotset2 : pyStartsWith (strCat "get_" field) "set_" = false :=
      not_set_of_get _ (pyStartsWith_strCat _ _)
    have hup2 := update_state_not_set
      { d with state := dictSet d.state (strCat "set_" field) (args, kwargs)
               values := setterValues d.methods d.values field v }
      (strCat "get_" field) [] [] hnotset2
    have hval2 : dictGet (setterValues d.methods d.values field v)
        (strCat "get_" field) = some v :=
      dictGet_setterValues_get d.methods d.values field v hg
    exact ⟨{ d with
             state := dictSet
               (dictSet d.state (strCat "set_" field) (args, kwargs))
               (strCat "get_" field) ([], [])
             values := setterValues d.methods d.values field v },
           by simp only [invoke, hcap2, hup2]; simp only [hval2], rfl⟩
  · intro hm hMmem hMov
    have hcap2 := getattrFull_capability
      { d with state := dictSet d.state (strCat "set_" field) (args, kwargs)
               values := setterValues d.methods d.values field v }
      (strCat "measure_" field) hMmem hMov hm
    have hnotset2 : pyStartsWith (strCat "measure_" field) "set_" = false :=
      not_set_of_measure _ (pyStartsWith_strCat _ _)
    have hup2 := update_state_not_set
      { d with state := dictSet d.state (strCat "set_" field) (args, kwargs)
               values := setterValues d.methods d.values field v }
      (strCat "measure_" field) [] [] hnotset2
    have hval2 : dictGet (setterValues d.methods d.values field v)
        (strCat "measure_" field) = some v :=
      dictGet_setterValues_measure d.methods d.values field v hm
    exact ⟨{ d with
             state := dictSet
               (dictSet d.state (strCat "set_" field) (args, kwargs))
               (strCat "measure_" field) ([], [])
             values := setterValues d.methods d.values field v },
           by simp only [invoke, hcap2, hup2]; simp only [hval2], rfl⟩

/-- C4 counterexample: on a device introspected from a class declaring
`set_volt -> bool` and `get_volt -> float`, the dispatched
`set_volt(5.0)` returns the bool default `False` (the precomputed default
for the setter's declared return type), not `None` as the claim states. -/
theorem c4_counterexample_setter_returns_typed_default :
    (invoke (VirtualDevice.create "a"
      (some [("set_volt", PyType.boolT), ("get_volt", PyType.floatT)]) [])
      "set_volt" [PyVal.float 5] []).retVal = some (PyVal.bool false) ∧
    PyVal.bool false ≠ PyVal.none :=
  ⟨rfl, fun h => PyVal.noConfusion h⟩

theorem c4_witness :
    ∃ d', invoke (VirtualDevice.create "a"
        (some [("set_volt", PyType.noneAnn), ("get_volt", PyType.floatT),
               ("measure_volt", PyType.floatT)]) [])
        (strCat "set_" "volt") [PyVal.float 12] [] = .ok PyVal.none d' ∧
      dictGet d'.values (strCat "get_" "volt") = some (PyVal.float 12) ∧
      (∃ d'', invoke d' (strCat "get_" "volt") [] [] =
        .ok (PyVal.float 12) d'' ∧ d''.values = d'.values) := by
  obtain ⟨d', hinv, -, -, hget, -, hrt, -⟩ :=
    c4_setter_roundtrip
      (VirtualDevice.create "a"
        (some [("set_volt", PyType.noneAnn), ("get_volt", PyType.floatT),
               ("measure_volt", PyType.floatT)]) [])
      "volt" (PyVal.float 12) ⟨PyType.noneAnn, PyVal.none⟩ rfl rfl (by decide)
      rfl [PyVal.float 12] [] (Or.inl ⟨rfl, rfl⟩)
  exact ⟨d', hinv, hget (by decide), hrt (by decide) (by decide) rfl⟩

/-- C1 (corrected): the call history is a dict keyed by operation name, so
for a sequence of dispatched invocations with pairwise-distinct names
(none shadowed by an engine member or a static override, and `set_` calls
carrying at least one argument) the history afterwards holds exactly one
`(name, (args, kwargs))` entry per invocation, in call order, and
`get_call_history()` with no filter returns all of them. -/
theorem c1_distinct_names_history (addr : String)
    (cls : Option (List (String × PyType))) (kw : Kwargs) (cs : List Call)
    (hmem : ∀ c ∈ cs, c.name ∉ engineMembers)
    (hover : ∀ c ∈ cs, dictGet kw c.name = none)
    (hset : ∀ c ∈ cs, pyStartsWith c.name "set_" = true →
      (c.kwargs ≠ [] ∨ c.args ≠ []))
    (hnd : (cs.map Call.name).Nodup) :
    ∃ d', runCalls (VirtualDevice.create addr cls kw) cs = some d' ∧
      d'.state = cs.map (fun c => (c.name, (c.args, c.kwargs))) ∧
      get_call_history d' none =
        .full (cs.map (fun c => (c.name, (c.args, c.kwargs)))) := by
  obtain ⟨d', hrun, hst, -⟩ := runCalls_distinct cs
    (VirtualDevice.create addr cls kw) hmem
    (fun c hc => hover c hc) hset (fun c hc => rfl) hnd
  have hst' : d'.state = cs.map (fun c => (c.name, (c.args, c.kwargs))) := by
    rw [hst, show (VirtualDevice.create addr cls kw).state = [] from rfl,
      List.nil_append]
  refine ⟨d', hrun, hst', ?_⟩
  show HistoryResult.full d'.state = _
  rw [hst']

theorem c1_witness :
    ∃ d', runCalls (VirtualDevice.create "v"
        (some [("set_voltage", PyType.noneAnn),
               ("measure_voltage", PyType.floatT)]) [])
        [⟨"set_voltage", [PyVal.float 5], []⟩,
         ⟨"measure_voltage", [], []⟩] = some d' ∧
      d'.state = [("set_voltage", ([PyVal.float 5], [])),
                  ("measure_voltage", ([], []))] ∧
      get_call_history d' none =
        .full [("set_voltage", ([PyVal.float 5], [])),
               ("measure_voltage", ([], []))] := by
  have h := c1_distinct_names_history "v"
    (some [("set_voltage", PyType.noneAnn),
           ("measure_voltage", PyType.floatT)]) []
    [⟨"set_voltage", [PyVal.float 5], []⟩, ⟨"measure_voltage", [], []⟩]
    (by decide) (fun c _ => rfl)
    (by
      intro c hc h
      rw [List.mem_cons, List.mem_singleton] at hc
      rcases hc with rfl | rfl
      · exact Or.inr (fun hh => List.noConfusion hh)
      · exact absurd h (by decide))
    (by decide)
  exact h

/-- C1 counterexample: two invocations of the same operation name leave a
single history entry — the dict keyed by name replaces the earlier entry —
so a sequence of 2 invocations does not yield 2 entries. -/
theorem c1_counterexample_duplicate_name_collapses :
    ((runCalls (VirtualDevice.create "virtualdevice" none [])
        [⟨"set_voltage", [PyVal.int 1], []⟩,
         ⟨"set_voltage", [PyVal.int 2], []⟩]).map
      (fun d => d.state.length)) = some 1 ∧ (1 : Nat) ≠ 2 :=
  ⟨rfl, by decide⟩

theorem doWithRetry_natCast {α : Type} (addr : String) (idn : Option String)
    (k : Nat) (ops : Nat → Outcome α) :
    doWithRetry addr idn (k : Int) ops = retryFrom addr idn ops k 0 := by
  unfold doWithRetry
  rw [if_neg (not_lt.mpr (Int.natCast_nonneg k)), Int.toNat_natCast]

theorem doWithRetry_all_transient {α : Type} (addr idn : String) (k : Nat)
    (ops : Nat → Outcome α) (h : ∀ i, ops i = .transient) :
    doWithRetry addr (some idn) (k : Int) ops =
      (.commError addr idn, k + 1) := by
  rw [doWithRetry_natCast, retryFrom_all_transient addr (some idn) ops h k 0]
  rfl

/-- C2: on a constructed resource (identification string known), every
retried I/O method against a transport raising `VisaIOError` on every
attempt performs exactly `max_retries + 1` attempts and then raises
`CommunicationError` carrying the address and identification string; a
non-transient exception propagates on the attempt that raised it with no
further attempts. -/
theorem c2_retry_exhaustion (k : Nat) (addr idn : String)
    (opsW opsWR : Nat → Outcome Unit) (opsQ opsR : Nat → Outcome String)
    (opsRR opsRB : Nat → Outcome (List Nat)) (nb : Nat)
    (hW : ∀ i, opsW i = .transient) (hWR : ∀ i, opsWR i = .transient)
    (hQ : ∀ i, opsQ i = .transient) (hR : ∀ i, opsR i = .transient)
    (hRR : ∀ i, opsRR i = .transient) (hRB : ∀ i, opsRB i = .transient) :
    write_resource addr (some idn) (k : Int) opsW =
      (.commError addr idn, k + 1) ∧
    write_resource_raw addr (some idn) (k : Int) opsWR =
      (.commError addr idn, k + 1) ∧
    query_resource addr (some idn) (k : Int) opsQ =
      (.commError addr idn, k + 1) ∧
    read_resource addr (some idn) (k : Int) opsR =
      (.commError addr idn, k + 1) ∧
    read_resource_raw addr (some idn) (k : Int) opsRR =
      (.commError addr idn, k + 1) ∧
    read_resource_bytes addr (some idn) (k : Int) nb opsRB =
      (.commError addr idn, k + 1) ∧
    (∀ (α : Type) (ops : Nat → Outcome α) (j : Nat), j ≤ k →
      (∀ i, i < j → ops i = .transient) →
      (ops j = .fatalPyvisa →
        doWithRetry addr (some idn) (k : Int) ops = (.raisedPyvisa, j + 1)) ∧
      (ops j = .fatalOther →
        doWithRetry addr (some idn) (k : Int) ops = (.raisedOther, j + 1))) := by
  refine ⟨?_, ?_, ?_, ?_, ?_, ?_, ?_⟩
  · simp only [write_resource, doWithRetry_all_transient addr idn k opsW hW]
  · simp only [write_resource_raw, write_resource,
      doWithRetry_all_transient addr idn k opsWR hWR]
  · simp only [query_resource, doWithRetry_all_transient addr idn k opsQ hQ]
  · simp only [read_resource, doWithRetry_all_transient addr idn k opsR hR]
  · simp only [read_resource_raw,
      doWithRetry_all_transient addr idn k opsRR hRR]
  · simp only [read_resource_bytes, read_resource_raw,
      doWithRetry_all_transient addr idn k opsRB hRB]
  · intro α ops j hj htr
    have htr' : ∀ t, t < j → ops (0 + t) = .transient := by
      intro t ht
      rw [Nat.zero_add]
      exact htr t ht
    obtain ⟨hp, ho⟩ :=
      retryFrom_fatal_immediate addr (some idn) ops j k 0 hj htr'
    constructor
    · intro hf
      rw [doWithRetry_natCast]
      exact hp (by rw [Nat.zero_add]; exact hf)
    · intro hf
      rw [doWithRetry_natCast]
      exact ho (by rw [Nat.zero_add]; exact hf)

theorem c2_witness :
    write_resource "GPIB0::5::INSTR" (some "FAKE,INSTR") ((1 : Nat) : Int)
      (fun _ => .transient) =
      (.commError "GPIB0::5::INSTR" "FAKE,INSTR", 2) ∧
    doWithRetry "GPIB0::5::INSTR" (some "FAKE,INSTR") ((1 : Nat) : Int)
      (fun i => if i = 0 then Outcome.transient (α := Unit) else .fatalOther) =
      (.raisedOther, 2) := by
  have h := c2_retry_exhaustion 1 "GPIB0::5::INSTR" "FAKE,INSTR"
    (fun _ => .transient) (fun _ => .transient) (fun _ => .transient)
    (fun _ => .transient) (fun _ => .transient) (fun _ => .transient) 3
    (fun _ => rfl) (fun _ => rfl) (fun _ => rfl) (fun _ => rfl)
    (fun _ => rfl) (fun _ => rfl)
  refine ⟨h.1, ?_⟩
  have h2 := (h.2.2.2.2.2.2 Unit
    (fun i => if i = 0 then .transient else .fatalOther) 1 (by decide)
    (by
      intro i hi
      have hi0 : i = 0 := Nat.lt_one_iff.mp hi
      subst hi0
      rfl)).2 rfl
  exact h2

/-- C10 (corrected): with a non-negative retry limit `_do_with_retry`
always returns a wrapped-operation result or raises — the fall-through that
would return `None` is unreachable; with `max_retries < 0` it performs zero
attempts and returns `None`, whereupon `write_resource`,
`write_resource_raw`, `read_resource_raw` and `read_resource_bytes`
silently return `None` without touching the transport, while
`query_resource` and `read_resource` instead raise `AttributeError` by
calling `.strip()` on that `None`. -/
theorem c10_retry_loop_totality (addr : String) (idn : Option String) :
    (∀ (α : Type) (ops : Nat → Outcome α) (mr : Int), 0 ≤ mr →
      (doWithRetry addr idn mr ops).1 ≠ .fallthroughNone ∧
      (∀ a, (doWithRetry addr idn mr ops).1 = .ok a →
        ∃ j, ops j = .success a)) ∧
    (∀ mr : Int, mr < 0 →
      (∀ (α : Type) (ops : Nat → Outcome α),
        doWithRetry addr idn mr ops = (.fallthroughNone, 0)) ∧
      (∀ opsW : Nat → Outcome Unit,
        write_resource addr idn mr opsW = (.noneValue, 0) ∧
        write_resource_raw addr idn mr opsW = (.noneValue, 0)) ∧
      (∀ (opsB : Nat → Outcome (List Nat)) (nb : Nat),
        read_resource_raw addr idn mr opsB = (.noneValue, 0) ∧
        read_resource_bytes addr idn mr nb opsB = (.noneValue, 0)) ∧
      (∀ opsS : Nat → Outcome String,
        query_resource addr idn mr opsS = (.attrError, 0) ∧
        read_resource addr idn mr opsS = (.attrError, 0))) := by
  constructor
  · intro α ops mr hmr
    have hd : doWithRetry addr idn mr ops = retryFrom addr idn ops mr.toNat 0 := by
      unfold doWithRetry
      rw [if_neg (not_lt.mpr hmr)]
    rw [hd]
    exact ⟨retryFrom_ne_fallthrough addr idn ops mr.toNat 0,
      fun a ha => retryFrom_ok_from_ops addr idn ops mr.toNat 0 a ha⟩
  · intro mr hmr
    have hd : ∀ (α : Type) (ops : Nat → Outcome α),
        doWithRetry addr idn mr ops = (.fallthroughNone, 0) := by
      intro α ops
      unfold doWithRetry
      rw [if_pos hmr]
    refine ⟨hd, ?_, ?_, ?_⟩
    · intro opsW
      constructor
      · simp only [write_resource, hd Unit opsW]
      · simp only [write_resource_raw, write_resource, hd Unit opsW]
    · intro opsB nb
      constructor
      · simp only [read_resource_raw, hd (List Nat) opsB]
      · simp only [read_resource_bytes, read_resource_raw, hd (List Nat) opsB]
    · intro opsS
      constructor
      · simp only [query_resource, hd String opsS]
      · simp only [read_resource, hd String opsS]

theorem c10_witness :
    (doWithRetry "A" (some "I") 0 (fun _ => Outcome.success ())).1 ≠
      .fallthroughNone ∧
    doWithRetry "A" (some "I") (-1) (fun _ => Outcome.success ()) =
      (.fallthroughNone, 0) ∧
    write_resource "A" (some "I") (-1) (fun _ => .success ()) =
      (.noneValue, 0) ∧
    read_resource "A" (some "I") (-1) (fun _ => .success "x") =
      (.attrError, 0) := by
  have h1 := (c10_retry_loop_totality "A" (some "I")).1 Unit
    (fun _ => .success ()) 0 (by decide)
  have h2 := (c10_retry_loop_totality "A" (some "I")).2 (-1) (by decide)
  exact ⟨h1.1, h2.1 Unit _, (h2.2.1 _).1, (h2.2.2.2 _).2⟩

/-- C10 counterexample: with `max_retries = -1`, `query_resource` does not
silently return `None` — the `None` returned by the exhausted retry helper
is immediately subjected to `.strip()`, raising `AttributeError` (after
zero transport attempts). -/
theorem c10_counterexample_negative_query_raises :
    query_resource "GPIB0::7::INSTR" (some "ID") (-1)
      (fun _ => .success "5.0V") = (.attrError, 0) ∧
    (IOOutcome.attrError : IOOutcome String) ≠ .noneValue :=
  ⟨rfl, by decide⟩

/-- C6 (corrected): `query_resource` and `read_resource` return the raw
response with the trailing whitespace run removed and, in addition, the
leading whitespace run removed — Python's `str.strip()` trims both ends,
so the text before the trailing run is not left unchanged when it starts
with whitespace. -/
theorem c6_query_read_strip_both_ends :
    (∀ raw : String, pyStrip raw = specLeadingTrim (specTrailingTrim raw)) ∧
    (∀ (addr : String) (idn : Option String) (mr : Int)
       (ops : Nat → Outcome String) (raw : String) (n : Nat),
      doWithRetry addr idn mr ops = (.ok raw, n) →
      query_resource addr idn mr ops =
        (.value (specLeadingTrim (specTrailingTrim raw)), n) ∧
      read_resource addr idn mr ops =
        (.value (specLeadingTrim (specTrailingTrim raw)), n)) := by
  refine ⟨pyStrip_eq_lead_of_trail, ?_⟩
  intro addr idn mr ops raw n h
  constructor
  · simp only [query_resource, h]
    rw [pyStrip_eq_lead_of_trail]
  · simp only [read_resource, h]
    rw [pyStrip_eq_lead_of_trail]

theorem c6_witness :
    query_resource "A" (some "I") 0 (fun _ => .success " 5.0\n") =
      (.value (specLeadingTrim (specTrailingTrim " 5.0\n")), 1) ∧
    read_resource "A" (some "I") 0 (fun _ => .success " 5.0\n") =
      (.value (specLeadingTrim (specTrailingTrim " 5.0\n")), 1) :=
  c6_query_read_strip_both_ends.2 "A" (some "I") 0 _ " 5.0\n" 1 rfl

/-- C6 counterexample: for the raw response `" OK\n"` the code returns
`"OK"`, while removing only the trailing whitespace run (leaving everything
before it unchanged, as the claim states) would give `" OK"`. -/
theorem c6_counterexample_leading_whitespace_stripped :
    query_resource "A" (some "I") 0 (fun _ => .success " OK\n") =
      (.value "OK", 1) ∧
    specTrailingTrim " OK\n" = " OK" ∧
    ("OK" : String) ≠ " OK" :=
  ⟨rfl, rfl, by decide⟩

end PED
